import Mathlib

/-!
Verification of the ShadowSwap Bitcoin HTLC core (`btc-htlc.ts`).

The development shallow-embeds the module's pure computations and the
control flow of its operations:

* `encodeScriptNumber` — the minimal script-number codec, including the
  JavaScript 32-bit semantics of `&` and `>>` (`ToInt32` wrapping);
* `writeVarInt` / `witnessStackToScriptWitness` — the compact-size and
  witness wire serializers;
* `generateHTLC`, `createRedeemTx`, `createRefundTx`, `generateSecret` —
  the script builder and transaction builders, with the external
  `bitcoinjs-lib` / `tiny-secp256k1` primitives (curve-point tests,
  signing, SHA-256, the address codec) abstracted as an environment of
  opaque functions, and JavaScript numbers modelled as rationals so that
  the `Number.isInteger` checks are expressible.

Byte strings are `List Nat` with each entry a byte value; errors carry the
error class of the design's taxonomy (validation / cryptographic /
construction) together with the source's message text (numeric
interpolations in messages are omitted).
-/

/-! ## JavaScript 32-bit integer primitives

JavaScript's `&` and `>>` convert their operands with `ToInt32`
(wrap modulo 2^32 into `[-2^31, 2^31)`).  `x >> 8` is an arithmetic
shift, i.e. floor division of the `ToInt32` value by 256; `x & 0xff`
is the low byte of the 32-bit pattern, i.e. `(x mod 2^32) &&& 255`.
Lean's `Int` division is Euclidean, which for a positive divisor is
exactly floor division. -/

/-- The unsigned 32-bit pattern (`ToUint32`) of a JavaScript number. -/
def toUint32 (x : Int) : Nat := (x % 4294967296).toNat

/-- Wrap (`ToInt32`) into the signed 32-bit range `[-2^31, 2^31)`. -/
def toInt32 (x : Int) : Int := (x + 2147483648) % 4294967296 - 2147483648

theorem toInt32_lt (x : Int) : toInt32 x < 2147483648 := by
  unfold toInt32
  have h := Int.emod_lt_of_pos (x + 2147483648) (b := 4294967296) (by norm_num)
  omega

theorem toInt32_le (x : Int) : -2147483648 ≤ toInt32 x := by
  unfold toInt32
  have h := Int.emod_nonneg (x + 2147483648) (b := (4294967296 : Int)) (by norm_num)
  omega

theorem toInt32_of_lt {x : Int} (h0 : 0 ≤ x) (h1 : x < 2147483648) : toInt32 x = x := by
  unfold toInt32
  rw [Int.emod_eq_of_lt (by omega) (by omega)]
  omega

theorem toUint32_of_lt {x : Int} (h0 : 0 ≤ x) (h1 : x < 4294967296) :
    toUint32 x = x.toNat := by
  unfold toUint32
  rw [Int.emod_eq_of_lt (by omega) (by omega)]

/-! ## Script-number codec (`encodeScriptNumber`)

Source loop:
```
while (absValue > 0) { result.push(absValue & 0xff); absValue >>= 8; }
```
`absValue` is carried as the mathematical value of the JavaScript
number; `&` and `>>=` apply the 32-bit conversions above. -/

/-- The byte-emitting loop of `encodeScriptNumber`. -/
def scriptNumLoop (absValue : Int) : List Nat :=
  if h : 0 < absValue then
    (toUint32 absValue &&& 255) :: scriptNumLoop (toInt32 absValue / 256)
  else []
termination_by absValue.natAbs
decreasing_by
  have hlt := toInt32_lt absValue
  have hle := toInt32_le absValue
  have hq1 : toInt32 absValue / 256 ≤ 8388607 := by
    have h1 : toInt32 absValue ≤ 2147483647 := by omega
    have h2 := Int.ediv_le_ediv (a := toInt32 absValue) (b := 2147483647)
      (c := 256) (by norm_num) h1
    omega
  have hq2 : -8388608 ≤ toInt32 absValue / 256 := by
    have h2 := Int.ediv_le_ediv (a := -2147483648) (b := toInt32 absValue)
      (c := 256) (by norm_num) hle
    omega
  by_cases hs : absValue < 2147483648
  · have he : toInt32 absValue = absValue := toInt32_of_lt (by omega) hs
    have hlt2 : absValue / 256 < absValue := by
      rw [Int.ediv_lt_iff_lt_mul (by norm_num)]
      omega
    have hnn : 0 ≤ absValue / 256 := Int.ediv_nonneg (by omega) (by norm_num)
    rw [he]
    omega
  · omega

/-- Minimal signed little-endian script number (`encodeScriptNumber`),
as implemented (emit low bytes; if the final byte's high bit is set,
append a sign byte, else for negatives set the high bit of the final
byte). -/
def encodeScriptNumber (num : Int) : List Nat :=
  if num = 0 then []
  else
    let result := scriptNumLoop (num.natAbs : Int)
    let last := result.getLastD 0
    if last &&& 128 ≠ 0 then
      result ++ [if num < 0 then 128 else 0]
    else if num < 0 then
      result.dropLast ++ [last ||| 128]
    else result

/-- Idealized digit extraction: base-256 little-endian digits of a
natural number (what the loop computes when no 32-bit wrap occurs). -/
def scriptDigits (n : Nat) : List Nat :=
  if h : n = 0 then [] else (n % 256) :: scriptDigits (n / 256)
termination_by n
decreasing_by exact Nat.div_lt_self (Nat.pos_of_ne_zero h) (by norm_num)

/-- Value of a little-endian base-256 byte string. -/
def leValue (l : List Nat) : Nat := l.foldr (fun b acc => b + 256 * acc) 0

theorem leValue_nil : leValue [] = 0 := rfl

theorem leValue_cons (b : Nat) (l : List Nat) :
    leValue (b :: l) = b + 256 * leValue l := rfl

theorem leValue_append_single (l : List Nat) (b : Nat) :
    leValue (l ++ [b]) = leValue l + 256 ^ l.length * b := by
  induction l with
  | nil => simp [leValue]
  | cons x t ih =>
      simp only [List.cons_append, leValue_cons, ih, List.length_cons]
      ring

theorem scriptNumLoop_eq_digits : ∀ n : Nat, n < 2147483648 →
    scriptNumLoop (n : Int) = scriptDigits n := by
  intro n
  induction n using Nat.strong_induction_on with
  | _ n ih =>
    intro hn
    rw [scriptNumLoop, scriptDigits]
    by_cases h0 : n = 0
    · subst h0; norm_num
    · have hpos : (0 : Int) < (n : Int) := by exact_mod_cast Nat.pos_of_ne_zero h0
      rw [dif_pos hpos, dif_neg h0]
      have hu : toUint32 (n : Int) = n := by
        rw [toUint32_of_lt (by positivity) (by exact_mod_cast by omega)]
        simp
      have hi : toInt32 (n : Int) = (n : Int) :=
        toInt32_of_lt (by positivity) (by exact_mod_cast hn)
      have hdiv : toInt32 (n : Int) / 256 = ((n / 256 : Nat) : Int) := by
        rw [hi, Int.ofNat_ediv]
        norm_num
      have hband : n &&& 255 = n % 256 := by
        have h255 : (255 : Nat) = 2 ^ 8 - 1 := by norm_num
        rw [h255, Nat.and_pow_two_sub_one_eq_mod]
      rw [hu, hband, hdiv, ih (n / 256) (Nat.div_lt_self (Nat.pos_of_ne_zero h0) (by norm_num)) (by omega)]

theorem leValue_scriptDigits : ∀ n : Nat, leValue (scriptDigits n) = n := by
  intro n
  induction n using Nat.strong_induction_on with
  | _ n ih =>
    rw [scriptDigits]
    by_cases h0 : n = 0
    · subst h0; norm_num [leValue]
    · rw [dif_neg h0, leValue_cons,
        ih (n / 256) (Nat.div_lt_self (Nat.pos_of_ne_zero h0) (by norm_num))]
      omega

theorem scriptDigits_last : ∀ n : Nat, 0 < n →
    ∃ init b, scriptDigits n = init ++ [b] ∧ 0 < b ∧ b < 256 := by
  intro n
  induction n using Nat.strong_induction_on with
  | _ n ih =>
    intro hn
    rw [scriptDigits, dif_neg (by omega)]
    by_cases hsmall : n / 256 = 0
    · refine ⟨[], n % 256, ?_, ?_, ?_⟩
      · rw [scriptDigits, dif_pos hsmall]; simp
      · have : n < 256 := by omega
        omega
      · omega
    · obtain ⟨init, b, heq, hb0, hb1⟩ :=
        ih (n / 256) (Nat.div_lt_self hn (by norm_num)) (Nat.pos_of_ne_zero hsmall)
      exact ⟨n % 256 :: init, b, by rw [heq]; simp, hb0, hb1⟩

/-- The mask `b &&& 128` tests the high bit: for a byte value it is nonzero
exactly when `128 ≤ b`. -/
theorem and_128_ne_zero_iff {b : Nat} (hb : b < 256) : b &&& 128 ≠ 0 ↔ 128 ≤ b := by
  have h : b &&& 128 = (b.testBit 7).toNat * 128 := by
    have := Nat.and_two_pow b 7
    norm_num at this
    exact this
  rw [h, Nat.testBit_to_div_mod]
  rcases Nat.lt_or_ge b 128 with hlt | hge
  · have : b / 2 ^ 7 = 0 := by
      apply Nat.div_eq_of_lt
      norm_num
      omega
    simp [this]
    omega
  · have : b / 2 ^ 7 = 1 := by
      norm_num
      omega
    simp [this]
    omega

/-- Closed form of the codec on positive inputs below `2^31`: digits,
plus a single `0x00` pad exactly when the top digit's high bit is set. -/
theorem encodeScriptNumber_pos_eq {n : Nat} (h0 : 0 < n) (h31 : n < 2147483648) :
    encodeScriptNumber (n : Int) =
      (if 128 ≤ (scriptDigits n).getLastD 0
       then scriptDigits n ++ [0] else scriptDigits n) := by
  unfold encodeScriptNumber
  have hne : (n : Int) ≠ 0 := by exact_mod_cast Nat.pos_iff_ne_zero.mp h0
  rw [if_neg hne]
  have habs : ((n : Int).natAbs : Int) = (n : Int) := by simp
  rw [habs, scriptNumLoop_eq_digits n h31]
  obtain ⟨init, b, heq, hb0, hb1⟩ := scriptDigits_last n h0
  have hlast : (scriptDigits n).getLastD 0 = b := by
    rw [heq]
    rw [List.getLastD_eq_getLast?, List.getLast?_concat]
    rfl
  have hneg : ¬ ((n : Int) < 0) := by
    push_neg
    positivity
  rw [hlast]
  rcases Nat.lt_or_ge b 128 with hlt | hge
  · have hand : ¬ ((scriptDigits n).getLastD 0 &&& 128 ≠ 0) := by
      rw [hlast]
      rw [and_128_ne_zero_iff hb1]
      omega
    rw [if_neg hand, if_neg hneg, if_neg (by omega)]
  · have hand : (scriptDigits n).getLastD 0 &&& 128 ≠ 0 := by
      rw [hlast]
      rw [and_128_ne_zero_iff hb1]
      omega
    rw [if_pos hand, if_pos hge, if_neg hneg]

theorem scriptDigits_eq (n : Nat) :
    scriptDigits n = if n = 0 then [] else (n % 256) :: scriptDigits (n / 256) := by
  rw [scriptDigits]
  split <;> rfl

theorem encodeScriptNumber_zero : encodeScriptNumber 0 = [] := by
  simp [encodeScriptNumber]

theorem scriptNumLoop_wrap : scriptNumLoop ((2147483648 : Int).natAbs : Int) = [0] := by
  rw [show (((2147483648:Int).natAbs : Nat) : Int) = 2147483648 by norm_num]
  rw [scriptNumLoop, dif_pos (by norm_num : (0:Int) < 2147483648)]
  have ht : toInt32 2147483648 / 256 = -8388608 := by
    norm_num [toInt32]
  have hb : toUint32 2147483648 &&& 255 = 0 := by
    have h2 : toUint32 2147483648 = 2147483648 := by
      rw [toUint32_of_lt (by norm_num) (by norm_num)]
      simp
    rw [h2]
    decide
  rw [ht, hb, scriptNumLoop, dif_neg (by norm_num)]

/-- C3, counterexample.  The claim quantifies over *every* non-negative
integer, but the implementation's `absValue >>= 8` goes through JavaScript's
`ToInt32`: at input `2^31` the shifted value wraps to a negative number, the
loop stops after one iteration, and the function returns the single byte
`0x00` — which is not the minimal signed little-endian encoding of `2^31`
(its little-endian value is `0`, and a lone zero byte is itself a redundant
zero byte). -/
theorem claim3_counterexample :
    encodeScriptNumber 2147483648 = [0] ∧
    leValue (encodeScriptNumber 2147483648) ≠ 2147483648 := by
  have h : encodeScriptNumber 2147483648 = [0] := by
    unfold encodeScriptNumber
    rw [if_neg (by norm_num : (2147483648:Int) ≠ 0)]
    simp only [scriptNumLoop_wrap]
    norm_num
  refine ⟨h, ?_⟩
  rw [h]
  norm_num [leValue]

/-- C3 (amended).  On `0` and on every positive integer strictly below `2^31`
(the range in which the JavaScript 32-bit `&`/`>>` in the loop act as exact
byte extraction), `encodeScriptNumber` produces the minimal signed
little-endian encoding: the table of the spec holds; the bytes decode
(little-endian base 256) back to the input; the final byte's high bit is
clear (the encoding reads back as a non-negative signed number); the
encoding is non-empty; and a trailing zero byte occurs only as the
sign-disambiguation byte, i.e. only when the preceding byte has its high
bit set — so there is no redundant leading zero. -/
theorem claim3_scriptNumber_codec :
    encodeScriptNumber 0 = [] ∧
    encodeScriptNumber 127 = [0x7F] ∧
    encodeScriptNumber 128 = [0x80, 0x00] ∧
    encodeScriptNumber 144 = [0x90, 0x00] ∧
    encodeScriptNumber 255 = [0xFF, 0x00] ∧
    encodeScriptNumber 256 = [0x00, 0x01] ∧
    ∀ n : Nat, 0 < n → n < 2147483648 →
      leValue (encodeScriptNumber (n : Int)) = n ∧
      encodeScriptNumber (n : Int) ≠ [] ∧
      (encodeScriptNumber (n : Int)).getLastD 0 < 128 ∧
      ((encodeScriptNumber (n : Int)).getLastD 0 = 0 →
        128 ≤ ((encodeScriptNumber (n : Int)).dropLast.getLastD 0)) := by
  refine ⟨encodeScriptNumber_zero, ?_, ?_, ?_, ?_, ?_, ?_⟩
  · rw [show (127:Int) = ((127:Nat):Int) by norm_num,
      encodeScriptNumber_pos_eq (by norm_num) (by norm_num)]
    simp [scriptDigits_eq]
  · rw [show (128:Int) = ((128:Nat):Int) by norm_num,
      encodeScriptNumber_pos_eq (by norm_num) (by norm_num)]
    simp [scriptDigits_eq]
  · rw [show (144:Int) = ((144:Nat):Int) by norm_num,
      encodeScriptNumber_pos_eq (by norm_num) (by norm_num)]
    simp [scriptDigits_eq]
  · rw [show (255:Int) = ((255:Nat):Int) by norm_num,
      encodeScriptNumber_pos_eq (by norm_num) (by norm_num)]
    simp [scriptDigits_eq]
  · rw [show (256:Int) = ((256:Nat):Int) by norm_num,
      encodeScriptNumber_pos_eq (by norm_num) (by norm_num)]
    simp [scriptDigits_eq]
  · intro n h0 h31
    obtain ⟨init, b, heq, hb0, hb1⟩ := scriptDigits_last n h0
    have hlastd : (scriptDigits n).getLastD 0 = b := by
      rw [heq, List.getLastD_eq_getLast?, List.getLast?_concat]
      rfl
    rw [encodeScriptNumber_pos_eq h0 h31, hlastd]
    rcases Nat.lt_or_ge b 128 with hlt | hge
    · rw [if_neg (by omega)]
      refine ⟨leValue_scriptDigits n, ?_, ?_, ?_⟩
      · rw [heq]
        simp
      · rw [hlastd]
        omega
      · rw [hlastd]
        omega
    · rw [if_pos hge]
      have hlast0 : (scriptDigits n ++ [0]).getLastD 0 = 0 := by
        rw [List.getLastD_eq_getLast?, List.getLast?_concat]
        rfl
      refine ⟨?_, by simp, ?_, ?_⟩
      · rw [leValue_append_single, leValue_scriptDigits]
        omega
      · rw [hlast0]
        omega
      · intro _
        rw [List.dropLast_concat, hlastd]
        exact hge

/-- Witness for C3: the codec applied at the concrete input 300
(= `0x012C`, two bytes, high bit of top byte clear). -/
theorem claim3_witness :
    leValue (encodeScriptNumber ((300:Nat) : Int)) = 300 ∧
    (encodeScriptNumber ((300:Nat) : Int)).getLastD 0 < 128 := by
  have h := (claim3_scriptNumber_codec.2.2.2.2.2.2) 300 (by norm_num) (by norm_num)
  exact ⟨h.1, h.2.2.1⟩

/-! ## Witness serializer (`witnessStackToScriptWitness`)

`writeVarInt` is the source's compact-size encoder; the 16/32-bit
little-endian writers model Node's `Buffer.writeUInt16LE` /
`writeUInt32LE` byte layout.  In the final (`0xff`) branch the source
computes the high word as `(n / 0x100000000) | 0`; division of a
(≤ 2^53) JavaScript integer by this power of two is exact, so the high
word is `⌊n / 2^32⌋`, and `n >>> 0` is `n mod 2^32`. -/

def writeUInt16LE (n : Nat) : List Nat := [n % 256, n / 256 % 256]

def writeUInt32LE (n : Nat) : List Nat :=
  [n % 256, n / 256 % 256, n / 65536 % 256, n / 16777216 % 256]

/-- Compact-size encoder (`writeVarInt` in the source). -/
def writeVarInt (n : Nat) : List Nat :=
  if n < 0xfd then [n]
  else if n ≤ 0xffff then 0xfd :: writeUInt16LE n
  else if n ≤ 0xffffffff then 0xfe :: writeUInt32LE n
  else 0xff :: (writeUInt32LE (n % 4294967296) ++ writeUInt32LE (n / 4294967296))

/-- Length prefix followed by the raw bytes (`writeVarSlice`). -/
def writeVarSlice (s : List Nat) : List Nat := writeVarInt s.length ++ s

/-- The witness serializer: item count, then each item length-prefixed,
accumulated by repeated buffer concatenation as in the source. -/
def witnessStackToScriptWitness (witness : List (List Nat)) : List Nat :=
  witness.foldl (fun buffer w => buffer ++ writeVarSlice w) (writeVarInt witness.length)

/-- Modelled from the spec's words (§4.6), for comparison with the
implementation: "a compact-size–encoded count of items, then for each
item a compact-size–encoded byte length followed by the raw bytes". -/
def specWitnessWire (w : List (List Nat)) : List Nat :=
  writeVarInt w.length ++ w.foldr (fun item acc => (writeVarInt item.length ++ item) ++ acc) []

theorem foldl_concat_eq (w : List (List Nat)) :
    ∀ init : List Nat,
      w.foldl (fun buffer x => buffer ++ writeVarSlice x) init =
        init ++ w.foldr (fun item acc => writeVarSlice item ++ acc) [] := by
  induction w with
  | nil => intro init; simp
  | cons x t ih =>
      intro init
      simp only [List.foldl_cons, List.foldr_cons, ih (init ++ writeVarSlice x)]
      simp

theorem leValue_append (a b : List Nat) :
    leValue (a ++ b) = leValue a + 256 ^ a.length * leValue b := by
  induction a with
  | nil => simp [leValue]
  | cons x t ih =>
      simp only [List.cons_append, leValue_cons, ih, List.length_cons]
      ring

/-! ## Validation layer and operation models

The module's operations (`generateHTLC`, `createRedeemTx`,
`createRefundTx`) are embedded as functions over:

* `ByteSource` — the `string | Buffer` parameters (hex text or raw bytes);
* `ℚ` — JavaScript numbers where the code checks `Number.isInteger`
  (`prevIndex`, `amountSats`, `feeSats`, `timeout`); a JS number is an
  integer exactly when its rational value has denominator 1;
* `Env` — the external primitives from `tiny-secp256k1`, `ecpair`,
  `bitcoinjs-lib` and the address codec, abstracted as opaque functions.

Errors are classified into the design taxonomy (§7): `validation`,
`cryptographic`, `construction`.  Message strings follow the source
(numeric interpolations omitted).  The transaction-builder models also
return the list of cryptographic operations that were performed
(`keyDerive` for `ECPair.fromPrivateKey`, `signing` for
`psbt.signInput`), so that ordering of validation against cryptographic
work is observable. -/

/-- Error taxonomy of the design (§7). -/
inductive Err where
  | validation (msg : String)
  | cryptographic (msg : String)
  | construction (msg : String)
deriving DecidableEq, Repr

/-- A `string | Buffer` parameter. -/
inductive ByteSource where
  | str (s : String)
  | buf (b : List Nat)
deriving DecidableEq, Repr

/-- Character test of `HEX_RE = /^[0-9a-fA-F]+$/`. -/
def isHexChar (c : Char) : Bool :=
  c.isDigit || ('a' ≤ c && c ≤ 'f') || ('A' ≤ c && c ≤ 'F')

/-- The anchored `HEX_RE.test` (the string must be non-empty and all hex). -/
def hexTest (s : String) : Bool :=
  s.length > 0 && s.toList.all isHexChar

/-- Value of one hex digit. -/
def hexCharVal (c : Char) : Nat :=
  if c.isDigit then c.toNat - 48
  else if 'a' ≤ c ∧ c ≤ 'f' then c.toNat - 87
  else if 'A' ≤ c ∧ c ≤ 'F' then c.toNat - 55
  else 0

/-- Decode an (even-length) hex character list into bytes, as
`Buffer.from(s, 'hex')` does. -/
def hexPairs : List Char → List Nat
  | c1 :: c2 :: rest => (16 * hexCharVal c1 + hexCharVal c2) :: hexPairs rest
  | _ => []

def hexDecode (s : String) : List Nat := hexPairs s.toList

/-- Normalize (`toBuffer`) a `string | Buffer` input to raw bytes
(`ValidationError` on empty, odd-length or non-hex text). -/
def toBuffer (input : ByteSource) (inputName : String) : Except Err (List Nat) :=
  match input with
  | .buf b => .ok b
  | .str s =>
      if s.length = 0 then .error (.validation (inputName ++ " cannot be empty"))
      else if s.length % 2 ≠ 0 ∨ ¬ hexTest s then
        .error (.validation (inputName ++ " must be a valid even-length hex string"))
      else .ok (hexDecode s)

/-- The value `Number.MAX_SAFE_INTEGER`. -/
def maxSafeInteger : ℚ := 9007199254740991

/-- Range check (`assertIntegerRange`): the value must be an integer (`Number.isInteger`)
within `[lo, hi]`. -/
def assertIntegerRange (value : ℚ) (inputName : String) (lo hi : ℚ) : Option Err :=
  if value.den = 1 ∧ lo ≤ value ∧ value ≤ hi then none
  else some (.validation ("Invalid " ++ inputName ++ ": expected integer in range"))

/-- Transaction-input check (`assertValidTxInput`): prevTxId is 64 hex chars; index, amount and fee
are integers in range; fee strictly below amount. -/
def assertValidTxInput (prevTxId : String) (prevIndex amountSats feeSats : ℚ) : Option Err :=
  if ¬ (hexTest prevTxId = true ∧ prevTxId.length = 64) then
    some (.validation "Invalid prevTxId: expected a 32-byte hex string")
  else match assertIntegerRange prevIndex "prevIndex" 0 maxSafeInteger with
  | some e => some e
  | none => match assertIntegerRange amountSats "amountSats" 1 maxSafeInteger with
    | some e => some e
    | none => match assertIntegerRange feeSats "feeSats" 1 maxSafeInteger with
      | some e => some e
      | none =>
          if feeSats ≥ amountSats then
            some (.validation "feeSats must be lower than amountSats")
          else none

/-- The external primitives the module calls, abstracted: curve-point and
private-scalar tests (`ecc.isPoint`, `ECPair.fromPrivateKey`), SHA-256,
the network's address codec (`bitcoin.address.toOutputScript`), bech32
P2WSH address derivation, and ECDSA signing (`psbt.signInput`, whose
produced `partialSig` the finalizer reads; `none` models a signing
failure).  An `Env` value fixes one network's instantiation of these. -/
structure Env where
  isPrivate : List Nat → Bool
  isPoint : List Nat → Bool
  sha256 : List Nat → List Nat
  toOutputScript : String → Option (List Nat)
  bech32Address : List Nat → Option String
  sign : List Nat → List Nat → Option (List Nat)

/-- Cryptographic operations performed by a transaction build, in order. -/
inductive CryptoEvent where
  | keyDerive
  | signing
deriving DecidableEq, Repr

/-- Chunk encoding of `bitcoin.script.compile` for one data push: minimal
opcodes for `[]`, `[0x81]` and `[1]`–`[16]`, else a direct push
(all pushes in this script are shorter than `0x4c` bytes). -/
def pushDataChunk (b : List Nat) : List Nat :=
  match b with
  | [] => [0x00]
  | [x] =>
      if 1 ≤ x ∧ x ≤ 16 then [0x50 + x]
      else if x = 0x81 then [0x4f]
      else [1, x]
  | _ => b.length :: b

/-- Result of `generateHTLC` (the human-readable ASM string is
produced by an external disassembler and is not modelled). -/
structure HTLCResult where
  address : String
  redeemScript : List Nat
  witnessScriptHash : List Nat
deriving DecidableEq, Repr

/-- Script builder (`generateHTLC`): validate, then compile
`OP_IF OP_SHA256 <H> OP_EQUALVERIFY <buyerPub> OP_CHECKSIG
 OP_ELSE <timeout> OP_CSV OP_DROP <sellerPub> OP_CHECKSIG OP_ENDIF`
and derive the P2WSH address from the script's SHA-256. -/
def generateHTLC (E : Env) (secretHash buyerPubKey sellerPubKey : ByteSource)
    (timeout : ℚ) : Except Err HTLCResult :=
  match toBuffer secretHash "secretHash" with
  | .error e => .error e
  | .ok secretHashBuf =>
  match toBuffer buyerPubKey "buyerPubKey" with
  | .error e => .error e
  | .ok buyerPubKeyBuf =>
  match toBuffer sellerPubKey "sellerPubKey" with
  | .error e => .error e
  | .ok sellerPubKeyBuf =>
  if secretHashBuf.length ≠ 32 then
    .error (.validation "Invalid secret hash length: expected 32 bytes")
  else if buyerPubKeyBuf.length ≠ 33 then
    .error (.validation "Invalid buyer public key length: expected 33 bytes")
  else if sellerPubKeyBuf.length ≠ 33 then
    .error (.validation "Invalid seller public key length: expected 33 bytes")
  else if E.isPoint buyerPubKeyBuf = false then
    .error (.cryptographic "Invalid buyer public key: not a valid secp256k1 point")
  else if E.isPoint sellerPubKeyBuf = false then
    .error (.cryptographic "Invalid seller public key: not a valid secp256k1 point")
  else match assertIntegerRange timeout "timeout" 1 16777215 with
  | some e => .error e
  | none =>
      -- timeout is an integer here, so its JavaScript value is `timeout.num`
      let timeoutBuffer := encodeScriptNumber timeout.num
      let redeemScript :=
        [0x63, 0xa8] ++ pushDataChunk secretHashBuf ++ [0x88] ++
          pushDataChunk buyerPubKeyBuf ++ [0xac, 0x67] ++
          pushDataChunk timeoutBuffer ++ [0xb2, 0x75] ++
          pushDataChunk sellerPubKeyBuf ++ [0xac, 0x68]
      let scriptHash := E.sha256 redeemScript
      match E.bech32Address scriptHash with
      | none => .error (.construction "Failed to generate P2WSH address")
      | some addr =>
          .ok { address := addr, redeemScript := redeemScript,
                witnessScriptHash := scriptHash }

/-- One transaction input of the finalized transaction. -/
structure TxIn where
  hash : String
  index : ℚ
  sequence : ℚ
  witness : List (List Nat)
deriving DecidableEq, Repr

/-- One transaction output. -/
structure TxOut where
  address : String
  value : ℚ
deriving DecidableEq, Repr

/-- The finalized transaction (the hex/txid serializations are produced
by `bitcoinjs-lib` and are not modelled). -/
structure Transaction where
  ins : List TxIn
  outs : List TxOut
deriving DecidableEq, Repr

structure RedeemTxResult where
  tx : Transaction
deriving DecidableEq, Repr

/-- Default `Psbt` input sequence (`DEFAULT_SEQUENCE = 0xffffffff`),
used when `addInput` is given no explicit sequence. -/
def defaultSequence : ℚ := 4294967295

/-- Claim build (`createRedeemTx`): build, sign and finalize the claim transaction.
Returns the performed cryptographic operations together with the
result.  Order follows the source: input normalization, keypair
creation (`createKeyPair` length-checks then derives), secret length,
non-empty script, `assertValidTxInput`, address check, then PSBT
assembly, signing, and finalization with witness
`[signature, secret, 0x01, redeemScript]`. -/
def createRedeemTx (E : Env) (prevTxId : String) (prevIndex amountSats : ℚ)
    (privateKey secret redeemScript : ByteSource) (destinationAddress : String)
    (feeSats : ℚ) : List CryptoEvent × Except Err RedeemTxResult :=
  match toBuffer privateKey "privateKey" with
  | .error e => ([], .error e)
  | .ok privateKeyBuf =>
  match toBuffer secret "secret" with
  | .error e => ([], .error e)
  | .ok secretBuf =>
  match toBuffer redeemScript "redeemScript" with
  | .error e => ([], .error e)
  | .ok redeemScriptBuf =>
  if privateKeyBuf.length ≠ 32 then
    ([], .error (.validation "Invalid private key length: expected 32 bytes"))
  else if E.isPrivate privateKeyBuf = false then
    ([.keyDerive], .error (.cryptographic "Invalid private key"))
  else
  -- the keypair has been derived at this point
  if secretBuf.length ≠ 32 then
    ([.keyDerive], .error (.validation "Invalid secret length: expected 32 bytes"))
  else if redeemScriptBuf = [] then
    ([.keyDerive], .error (.validation "redeemScript cannot be empty"))
  else match assertValidTxInput prevTxId prevIndex amountSats feeSats with
  | some e => ([.keyDerive], .error e)
  | none =>
  match E.toOutputScript destinationAddress with
  | none => ([.keyDerive], .error (.validation
      ("Invalid destination address for selected network: " ++ destinationAddress)))
  | some _ =>
  let outputAmount := amountSats - feeSats
  -- p2wsh.output = OP_0 <32-byte SHA256(redeemScript)> always derives here
  match E.sign privateKeyBuf redeemScriptBuf with
  | none => ([.keyDerive, .signing], .error (.construction "No signature found"))
  | some sig =>
      ([.keyDerive, .signing], .ok {
        tx := {
          ins := [{ hash := prevTxId, index := prevIndex,
                    sequence := defaultSequence,
                    witness := [sig, secretBuf, [0x01], redeemScriptBuf] }],
          outs := [{ address := destinationAddress, value := outputAmount }] } })

/-- Refund build (`createRefundTx`): build, sign and finalize the refund transaction.
Same shape as the claim build except: no secret; the input's sequence
is set to `timeout` (validated to `[1, 0xFFFFFF]` first); witness
`[signature, empty, redeemScript]`. -/
def createRefundTx (E : Env) (prevTxId : String) (prevIndex amountSats : ℚ)
    (privateKey redeemScript : ByteSource) (destinationAddress : String)
    (timeout : ℚ) (feeSats : ℚ) : List CryptoEvent × Except Err RedeemTxResult :=
  match toBuffer privateKey "privateKey" with
  | .error e => ([], .error e)
  | .ok privateKeyBuf =>
  match toBuffer redeemScript "redeemScript" with
  | .error e => ([], .error e)
  | .ok redeemScriptBuf =>
  if privateKeyBuf.length ≠ 32 then
    ([], .error (.validation "Invalid private key length: expected 32 bytes"))
  else if E.isPrivate privateKeyBuf = false then
    ([.keyDerive], .error (.cryptographic "Invalid private key"))
  else
  if redeemScriptBuf = [] then
    ([.keyDerive], .error (.validation "redeemScript cannot be empty"))
  else match assertIntegerRange timeout "timeout" 1 16777215 with
  | some e => ([.keyDerive], .error e)
  | none =>
  match assertValidTxInput prevTxId prevIndex amountSats feeSats with
  | some e => ([.keyDerive], .error e)
  | none =>
  match E.toOutputScript destinationAddress with
  | none => ([.keyDerive], .error (.validation
      ("Invalid destination address for selected network: " ++ destinationAddress)))
  | some _ =>
  let outputAmount := amountSats - feeSats
  match E.sign privateKeyBuf redeemScriptBuf with
  | none => ([.keyDerive, .signing], .error (.construction "No signature found"))
  | some sig =>
      ([.keyDerive, .signing], .ok {
        tx := {
          ins := [{ hash := prevTxId, index := prevIndex,
                    sequence := timeout,
                    witness := [sig, [], redeemScriptBuf] }],
          outs := [{ address := destinationAddress, value := outputAmount }] } })

/-- Hash utility `sha256(preimage)`: normalize then hash. -/
def sha256Util (E : Env) (preimage : ByteSource) : Except Err (List Nat) :=
  match toBuffer preimage "preimage" with
  | .error e => .error e
  | .ok data => .ok (E.sha256 data)

structure SecretResult where
  secret : List Nat
  secretHash : List Nat
deriving DecidableEq, Repr

/-- Secret generation (`generateSecret`): draw 32 bytes from the entropy source
(`crypto.randomBytes`) and hash them with `sha256`. -/
def generateSecret (E : Env) (randomBytes : Nat → List Nat) : Except Err SecretResult :=
  let secret := randomBytes 32
  match sha256Util E (.buf secret) with
  | .error e => .error e
  | .ok h => .ok { secret := secret, secretHash := h }

/-- C4.  The witness serializer emits a compact-size item count
followed by, for each item, a compact-size length and the raw bytes
(the shape the spec describes); the compact-size encoder is total, uses
one byte below `0xfd`, marker `0xfd` + 2-byte little-endian up to
`0xffff`, marker `0xfe` + 4-byte little-endian up to `0xffffffff`, and
marker `0xff` + 8-byte little-endian up to `2^64`; in every branch the
payload bytes decode back to the encoded value; and the boundary
lengths `0xfc`, `0xfd`, `0xffff`, `0x10000` serialize with the correct
marker byte and width. -/
theorem claim4_witness_serializer :
    writeVarInt 0xfc = [0xfc] ∧
    writeVarInt 0xfd = [0xfd, 0xfd, 0x00] ∧
    writeVarInt 0xffff = [0xfd, 0xff, 0xff] ∧
    writeVarInt 0x10000 = [0xfe, 0x00, 0x00, 0x01, 0x00] ∧
    (∀ w : List (List Nat), witnessStackToScriptWitness w = specWitnessWire w) ∧
    (∀ n : Nat,
      (n < 0xfd → writeVarInt n = [n]) ∧
      (0xfd ≤ n → n ≤ 0xffff →
        writeVarInt n = 0xfd :: writeUInt16LE n ∧
        (writeVarInt n).length = 3 ∧ leValue (writeUInt16LE n) = n) ∧
      (0xffff < n → n ≤ 0xffffffff →
        writeVarInt n = 0xfe :: writeUInt32LE n ∧
        (writeVarInt n).length = 5 ∧ leValue (writeUInt32LE n) = n) ∧
      (0xffffffff < n → n < 18446744073709551616 →
        (writeVarInt n).length = 9 ∧ (writeVarInt n).headI = 0xff ∧
        leValue (writeVarInt n).tail = n)) := by
  refine ⟨by decide, by decide, by decide, by decide, ?_, ?_⟩
  · intro w
    unfold witnessStackToScriptWitness specWitnessWire
    rw [foldl_concat_eq]
    simp [writeVarSlice]
  · intro n
    refine ⟨?_, ?_, ?_, ?_⟩
    · intro h
      unfold writeVarInt
      rw [if_pos h]
    · intro h1 h2
      unfold writeVarInt
      rw [if_neg (by omega), if_pos h2]
      refine ⟨rfl, rfl, ?_⟩
      simp [writeUInt16LE, leValue]
      omega
    · intro h1 h2
      unfold writeVarInt
      rw [if_neg (by omega), if_neg (by omega), if_pos h2]
      refine ⟨rfl, rfl, ?_⟩
      simp [writeUInt32LE, leValue]
      omega
    · intro h1 h2
      unfold writeVarInt
      rw [if_neg (by omega), if_neg (by omega), if_neg (by omega)]
      refine ⟨by simp [writeUInt32LE], rfl, ?_⟩
      simp only [List.tail_cons, leValue_append, writeUInt32LE, leValue]
      simp only [List.length_cons, List.length_nil, List.foldr]
      push_cast
      omega

/-- Witness for C4: the general branch rules applied at the concrete
length 70000 (above `0xffff`, so marker `0xfe`, four payload bytes). -/
theorem claim4_witness :
    writeVarInt 70000 = 0xfe :: writeUInt32LE 70000 ∧
    (writeVarInt 70000).length = 5 ∧ leValue (writeUInt32LE 70000) = 70000 := by
  exact (claim4_witness_serializer.2.2.2.2.2 70000).2.2.1 (by norm_num) (by norm_num)

theorem assertIntegerRange_none_iff (v : ℚ) (name : String) (lo hi : ℚ) :
    assertIntegerRange v name lo hi = none ↔ (v.den = 1 ∧ lo ≤ v ∧ v ≤ hi) := by
  unfold assertIntegerRange
  split <;> simp_all

theorem assertValidTxInput_none_iff (prevTxId : String) (prevIndex amountSats feeSats : ℚ) :
    assertValidTxInput prevTxId prevIndex amountSats feeSats = none ↔
      (hexTest prevTxId = true ∧ prevTxId.length = 64 ∧
       assertIntegerRange prevIndex "prevIndex" 0 maxSafeInteger = none ∧
       assertIntegerRange amountSats "amountSats" 1 maxSafeInteger = none ∧
       assertIntegerRange feeSats "feeSats" 1 maxSafeInteger = none ∧
       feeSats < amountSats) := by
  unfold assertValidTxInput
  repeat' split
  all_goals simp_all

/-- Inversion of a successful claim build: every validation passed, the
key was derived, the signer produced a signature, and the result is the
single-input single-output transaction with the claim witness. -/
theorem createRedeemTx_ok_inv (E : Env) (prevTxId : String) (prevIndex amountSats : ℚ)
    (privateKey secret redeemScript : ByteSource) (destinationAddress : String)
    (feeSats : ℚ) (tr : List CryptoEvent) (r : RedeemTxResult)
    (h : createRedeemTx E prevTxId prevIndex amountSats privateKey secret
      redeemScript destinationAddress feeSats = (tr, .ok r)) :
    ∃ privateKeyBuf secretBuf redeemScriptBuf sig,
      toBuffer privateKey "privateKey" = .ok privateKeyBuf ∧
      toBuffer secret "secret" = .ok secretBuf ∧
      toBuffer redeemScript "redeemScript" = .ok redeemScriptBuf ∧
      privateKeyBuf.length = 32 ∧
      E.isPrivate privateKeyBuf = true ∧
      secretBuf.length = 32 ∧
      redeemScriptBuf ≠ [] ∧
      assertValidTxInput prevTxId prevIndex amountSats feeSats = none ∧
      (∃ os, E.toOutputScript destinationAddress = some os) ∧
      E.sign privateKeyBuf redeemScriptBuf = some sig ∧
      tr = [.keyDerive, .signing] ∧
      r = { tx := {
        ins := [{ hash := prevTxId, index := prevIndex, sequence := defaultSequence,
                  witness := [sig, secretBuf, [0x01], redeemScriptBuf] }],
        outs := [{ address := destinationAddress, value := amountSats - feeSats }] } } := by
  unfold createRedeemTx at h
  repeat' split at h
  all_goals simp_all

/-- Inversion of a successful refund build. -/
theorem createRefundTx_ok_inv (E : Env) (prevTxId : String) (prevIndex amountSats : ℚ)
    (privateKey redeemScript : ByteSource) (destinationAddress : String)
    (timeout feeSats : ℚ) (tr : List CryptoEvent) (r : RedeemTxResult)
    (h : createRefundTx E prevTxId prevIndex amountSats privateKey
      redeemScript destinationAddress timeout feeSats = (tr, .ok r)) :
    ∃ privateKeyBuf redeemScriptBuf sig,
      toBuffer privateKey "privateKey" = .ok privateKeyBuf ∧
      toBuffer redeemScript "redeemScript" = .ok redeemScriptBuf ∧
      privateKeyBuf.length = 32 ∧
      E.isPrivate privateKeyBuf = true ∧
      redeemScriptBuf ≠ [] ∧
      assertIntegerRange timeout "timeout" 1 16777215 = none ∧
      assertValidTxInput prevTxId prevIndex amountSats feeSats = none ∧
      (∃ os, E.toOutputScript destinationAddress = some os) ∧
      E.sign privateKeyBuf redeemScriptBuf = some sig ∧
      tr = [.keyDerive, .signing] ∧
      r = { tx := {
        ins := [{ hash := prevTxId, index := prevIndex, sequence := timeout,
                  witness := [sig, [], redeemScriptBuf] }],
        outs := [{ address := destinationAddress, value := amountSats - feeSats }] } } := by
  unfold createRefundTx at h
  repeat' split at h
  all_goals simp_all

/-- Inversion of a successful script build: every validation passed,
both keys are curve points, the timeout is an integer in range. -/
theorem generateHTLC_ok_inv (E : Env) (secretHash buyerPubKey sellerPubKey : ByteSource)
    (timeout : ℚ) (r : HTLCResult)
    (h : generateHTLC E secretHash buyerPubKey sellerPubKey timeout = .ok r) :
    ∃ secretHashBuf buyerPubKeyBuf sellerPubKeyBuf,
      toBuffer secretHash "secretHash" = .ok secretHashBuf ∧
      toBuffer buyerPubKey "buyerPubKey" = .ok buyerPubKeyBuf ∧
      toBuffer sellerPubKey "sellerPubKey" = .ok sellerPubKeyBuf ∧
      secretHashBuf.length = 32 ∧
      buyerPubKeyBuf.length = 33 ∧
      sellerPubKeyBuf.length = 33 ∧
      E.isPoint buyerPubKeyBuf = true ∧
      E.isPoint sellerPubKeyBuf = true ∧
      assertIntegerRange timeout "timeout" 1 16777215 = none := by
  unfold generateHTLC at h
  repeat' split at h
  all_goals simp_all

/-! ## Concrete sample environment and inputs for witnesses

`sampleEnv` instantiates the abstract external primitives with simple
total functions (every key/point accepted, a fixed signature and hash),
standing in for one concrete network configuration. -/

def sampleEnv : Env where
  isPrivate := fun _ => true
  isPoint := fun _ => true
  sha256 := fun _ => List.replicate 32 0x11
  toOutputScript := fun _ => some [0x00, 0x14]
  bech32Address := fun _ => some "tb1qsample"
  sign := fun _ _ => some [0xAA, 0xBB]

/-- Variant of `sampleEnv` with public keys rejected by the curve-point test. -/
def sampleEnvNoPoint : Env :=
  { sampleEnv with isPoint := fun _ => false }

/-- A well-formed 64-hex-character previous transaction id. -/
def sampleTxId : String :=
  "aaaaaaaaaaaaaaaaaaaaaaaaaaaaaaaaaaaaaaaaaaaaaaaaaaaaaaaaaaaaaaaa"

def sampleKey : List Nat := List.replicate 32 1
def sampleSecret : List Nat := List.replicate 32 7
def samplePub : List Nat := List.replicate 33 2
def sampleHash : List Nat := List.replicate 32 3

/-- C1.  Every successful claim build yields a transaction with
exactly one input whose witness stack has length 4 and is
`[signature, secret, 0x01, redeemScript]`: element 0 is the signature
the signer produced for the claimer's key over the contract script,
element 1 is the (32-byte) secret, element 2 is the single byte `0x01`,
element 3 is the (non-empty) contract script bytes. -/
theorem claim1_claim_witness_stack :
    ∀ (E : Env) (prevTxId : String) (prevIndex amountSats : ℚ)
      (privateKey secret redeemScript : ByteSource) (destinationAddress : String)
      (feeSats : ℚ) (tr : List CryptoEvent) (r : RedeemTxResult),
      createRedeemTx E prevTxId prevIndex amountSats privateKey secret redeemScript
        destinationAddress feeSats = (tr, .ok r) →
      ∃ sig privateKeyBuf secretBuf redeemScriptBuf,
        toBuffer privateKey "privateKey" = .ok privateKeyBuf ∧
        toBuffer secret "secret" = .ok secretBuf ∧
        toBuffer redeemScript "redeemScript" = .ok redeemScriptBuf ∧
        secretBuf.length = 32 ∧
        redeemScriptBuf ≠ [] ∧
        E.sign privateKeyBuf redeemScriptBuf = some sig ∧
        r.tx.ins = [{ hash := prevTxId, index := prevIndex,
                      sequence := defaultSequence,
                      witness := [sig, secretBuf, [0x01], redeemScriptBuf] }] ∧
        ([sig, secretBuf, [0x01], redeemScriptBuf] : List (List Nat)).length = 4 := by
  intro E prevTxId prevIndex amountSats privateKey secret redeemScript dest feeSats tr r h
  obtain ⟨kB, sB, rB, sig, h1, h2, h3, _, _, h6, h7, _, _, h10, _, h12⟩ :=
    createRedeemTx_ok_inv E prevTxId prevIndex amountSats privateKey secret
      redeemScript dest feeSats tr r h
  subst h12
  exact ⟨sig, kB, sB, rB, h1, h2, h3, h6, h7, h10, rfl, rfl⟩

/-- Witness for C1: a concrete successful claim build under
`sampleEnv`; its single input carries the 4-element claim witness. -/
theorem claim1_witness :
    ∃ tr r, createRedeemTx sampleEnv sampleTxId 0 100000 (.buf sampleKey)
      (.buf sampleSecret) (.buf [0x51]) "tb1qdest" 500 = (tr, .ok r) ∧
      r.tx.ins = [{ hash := sampleTxId, index := 0, sequence := defaultSequence,
                    witness := [[0xAA, 0xBB], sampleSecret, [0x01], [0x51]] }] := by
  have h : createRedeemTx sampleEnv sampleTxId 0 100000 (.buf sampleKey)
      (.buf sampleSecret) (.buf [0x51]) "tb1qdest" 500 =
      ([.keyDerive, .signing], .ok { tx := {
        ins := [{ hash := sampleTxId, index := 0, sequence := defaultSequence,
                  witness := [[0xAA, 0xBB], sampleSecret, [0x01], [0x51]] }],
        outs := [{ address := "tb1qdest", value := 100000 - 500 }] } }) := by
    simp +decide [createRedeemTx, toBuffer, sampleEnv, assertValidTxInput,
      assertIntegerRange, maxSafeInteger, sampleKey, sampleSecret]
  obtain ⟨sig, kB, sB, rB, h1, h2, h3, _, _, h6, h7, _⟩ :=
    claim1_claim_witness_stack sampleEnv sampleTxId 0 100000 (.buf sampleKey)
      (.buf sampleSecret) (.buf [0x51]) "tb1qdest" 500 _ _ h
  refine ⟨_, _, h, ?_⟩
  simp only [toBuffer] at h1 h2 h3
  cases h1
  cases h2
  cases h3
  simp only [sampleEnv] at h6
  cases h6
  exact h7

/-- C2.  Every successful refund build yields a transaction with
exactly one input whose witness stack has length 3 and is
`[signature, empty, redeemScript]`, and that input's sequence field
equals the `timeout` argument (which a successful build has validated
to be an integer in `[1, 0xFFFFFF]`). -/
theorem claim2_refund_witness_stack :
    ∀ (E : Env) (prevTxId : String) (prevIndex amountSats : ℚ)
      (privateKey redeemScript : ByteSource) (destinationAddress : String)
      (timeout feeSats : ℚ) (tr : List CryptoEvent) (r : RedeemTxResult),
      createRefundTx E prevTxId prevIndex amountSats privateKey redeemScript
        destinationAddress timeout feeSats = (tr, .ok r) →
      ∃ sig privateKeyBuf redeemScriptBuf,
        toBuffer privateKey "privateKey" = .ok privateKeyBuf ∧
        toBuffer redeemScript "redeemScript" = .ok redeemScriptBuf ∧
        redeemScriptBuf ≠ [] ∧
        E.sign privateKeyBuf redeemScriptBuf = some sig ∧
        timeout.den = 1 ∧ 1 ≤ timeout ∧ timeout ≤ 16777215 ∧
        r.tx.ins = [{ hash := prevTxId, index := prevIndex,
                      sequence := timeout,
                      witness := [sig, [], redeemScriptBuf] }] ∧
        ([sig, [], redeemScriptBuf] : List (List Nat)).length = 3 := by
  intro E prevTxId prevIndex amountSats privateKey redeemScript dest timeout feeSats tr r h
  obtain ⟨kB, rB, sig, h1, h2, _, _, h5, h6, _, _, h9, _, h11⟩ :=
    createRefundTx_ok_inv E prevTxId prevIndex amountSats privateKey
      redeemScript dest timeout feeSats tr r h
  subst h11
  obtain ⟨hden, hlo, hhi⟩ := (assertIntegerRange_none_iff _ _ _ _).mp h6
  exact ⟨sig, kB, rB, h1, h2, h5, h9, hden, hlo, hhi, rfl, rfl⟩

/-- Witness for C2: a concrete successful refund build with
timeout 144; its single input has the 3-element refund witness and
sequence 144. -/
theorem claim2_witness :
    ∃ tr r, createRefundTx sampleEnv sampleTxId 0 100000 (.buf sampleKey)
      (.buf [0x51]) "tb1qdest" 144 500 = (tr, .ok r) ∧
      r.tx.ins = [{ hash := sampleTxId, index := 0, sequence := 144,
                    witness := [[0xAA, 0xBB], [], [0x51]] }] := by
  have h : createRefundTx sampleEnv sampleTxId 0 100000 (.buf sampleKey)
      (.buf [0x51]) "tb1qdest" 144 500 =
      ([.keyDerive, .signing], .ok { tx := {
        ins := [{ hash := sampleTxId, index := 0, sequence := 144,
                  witness := [[0xAA, 0xBB], [], [0x51]] }],
        outs := [{ address := "tb1qdest", value := 100000 - 500 }] } }) := by
    simp +decide [createRefundTx, toBuffer, sampleEnv, assertValidTxInput,
      assertIntegerRange, maxSafeInteger, sampleKey]
  obtain ⟨sig, kB, rB, h1, h2, _, h4, _, _, _, h8, _⟩ :=
    claim2_refund_witness_stack sampleEnv sampleTxId 0 100000 (.buf sampleKey)
      (.buf [0x51]) "tb1qdest" 144 500 _ _ h
  refine ⟨_, _, h, ?_⟩
  simp only [toBuffer] at h1 h2
  cases h1
  cases h2
  simp only [sampleEnv] at h4
  cases h4
  exact h8

/-- C10.  The claim build `createRedeemTx` takes no timeout parameter, and every
successful claim build leaves its single input's sequence field at the
`Psbt` wire default `0xffffffff` — no timeout value influences it. -/
theorem claim10_redeem_sequence_default :
    ∀ (E : Env) (prevTxId : String) (prevIndex amountSats : ℚ)
      (privateKey secret redeemScript : ByteSource) (destinationAddress : String)
      (feeSats : ℚ) (tr : List CryptoEvent) (r : RedeemTxResult),
      createRedeemTx E prevTxId prevIndex amountSats privateKey secret redeemScript
        destinationAddress feeSats = (tr, .ok r) →
      r.tx.ins.length = 1 ∧
      ∀ i ∈ r.tx.ins, i.sequence = 4294967295 := by
  intro E prevTxId prevIndex amountSats privateKey secret redeemScript dest feeSats tr r h
  obtain ⟨kB, sB, rB, sig, _, _, _, _, _, _, _, _, _, _, _, h12⟩ :=
    createRedeemTx_ok_inv E prevTxId prevIndex amountSats privateKey secret
      redeemScript dest feeSats tr r h
  subst h12
  refine ⟨rfl, ?_⟩
  intro i hi
  simp at hi
  subst hi
  rfl

/-- Witness for C10: the concrete claim build of `claim1_witness`
leaves the sequence at `0xffffffff`. -/
theorem claim10_witness :
    ∃ tr r, createRedeemTx sampleEnv sampleTxId 1 100000 (.buf sampleKey)
      (.buf sampleSecret) (.buf [0x52]) "tb1qdest2" 500 = (tr, .ok r) ∧
      ∀ i ∈ r.tx.ins, i.sequence = 4294967295 := by
  have h : createRedeemTx sampleEnv sampleTxId 1 100000 (.buf sampleKey)
      (.buf sampleSecret) (.buf [0x52]) "tb1qdest2" 500 =
      ([.keyDerive, .signing], .ok { tx := {
        ins := [{ hash := sampleTxId, index := 1, sequence := defaultSequence,
                  witness := [[0xAA, 0xBB], sampleSecret, [0x01], [0x52]] }],
        outs := [{ address := "tb1qdest2", value := 100000 - 500 }] } }) := by
    simp +decide [createRedeemTx, toBuffer, sampleEnv, assertValidTxInput,
      assertIntegerRange, maxSafeInteger, sampleKey, sampleSecret]
  have h2 := claim10_redeem_sequence_default sampleEnv sampleTxId 1 100000
    (.buf sampleKey) (.buf sampleSecret) (.buf [0x52]) "tb1qdest2" 500 _ _ h
  exact ⟨_, _, h, h2.2⟩

/-- C5, counterexample.  The claim says a `ValidationError` is
raised *before private-key-to-keypair derivation*.  In the source the
keypair is created (`ECPair.fromPrivateKey`) before `assertValidTxInput`
runs: at the malformed prevTxId `"1234"` (with an otherwise valid
32-byte key accepted by the curve library) the build returns the
prevTxId `ValidationError`, yet the key-derivation event has already
occurred. -/
theorem claim5_counterexample :
    createRedeemTx sampleEnv "1234" 0 100000 (.buf sampleKey) (.buf sampleSecret)
      (.buf [0x51]) "tb1qdest" 500 =
      ([.keyDerive], .error (.validation "Invalid prevTxId: expected a 32-byte hex string")) ∧
    CryptoEvent.keyDerive ∈ (createRedeemTx sampleEnv "1234" 0 100000 (.buf sampleKey)
      (.buf sampleSecret) (.buf [0x51]) "tb1qdest" 500).1 := by
  have h : createRedeemTx sampleEnv "1234" 0 100000 (.buf sampleKey) (.buf sampleSecret)
      (.buf [0x51]) "tb1qdest" 500 =
      ([.keyDerive], .error (.validation "Invalid prevTxId: expected a 32-byte hex string")) := by
    simp +decide [createRedeemTx, toBuffer, sampleEnv, assertValidTxInput,
      assertIntegerRange, maxSafeInteger, sampleKey, sampleSecret]
  refine ⟨h, ?_⟩
  rw [h]
  simp

/-- C5 (amended).  On any input violating a format or range rule,
both builds fail with a `ValidationError` and produce no artifact
(the error result carries no transaction), and no signing is ever
attempted before a validation failure; hex-format violations of the
key/secret/script inputs are detected before keypair derivation, but
the prevTxId/range/fee/address/secret-length checks run *after* the
private key has been turned into a keypair, so at most the
key-derivation step precedes a validation failure. -/
theorem claim5_validation_order :
    ∀ (E : Env) (prevTxId : String) (prevIndex amountSats : ℚ)
      (privateKey secret redeemScript : ByteSource) (destinationAddress : String)
      (timeout feeSats : ℚ) (m : String),
      (∀ tr, createRedeemTx E prevTxId prevIndex amountSats privateKey secret
          redeemScript destinationAddress feeSats = (tr, .error (.validation m)) →
        CryptoEvent.signing ∉ tr ∧ (tr = [] ∨ tr = [.keyDerive])) ∧
      (∀ tr, createRefundTx E prevTxId prevIndex amountSats privateKey
          redeemScript destinationAddress timeout feeSats = (tr, .error (.validation m)) →
        CryptoEvent.signing ∉ tr ∧ (tr = [] ∨ tr = [.keyDerive])) := by
  intro E prevTxId prevIndex amountSats privateKey secret redeemScript dest timeout feeSats m
  constructor
  · intro tr h
    unfold createRedeemTx at h
    repeat' split at h
    all_goals simp_all
    all_goals (obtain ⟨h1, h2⟩ := h; subst h1; simp)
  · intro tr h
    unfold createRefundTx at h
    repeat' split at h
    all_goals simp_all
    all_goals (obtain ⟨h1, h2⟩ := h; subst h1; simp)

/-- Witness for C5 (amended): at the malformed prevTxId `"1234"` the
claim build fails with a `ValidationError` and no signing occurred. -/
theorem claim5_witness :
    CryptoEvent.signing ∉ (createRedeemTx sampleEnv "1234" 0 100000 (.buf sampleKey)
      (.buf sampleSecret) (.buf [0x51]) "tb1qdest" 500).1 := by
  have h : createRedeemTx sampleEnv "1234" 0 100000 (.buf sampleKey) (.buf sampleSecret)
      (.buf [0x51]) "tb1qdest" 500 =
      ([.keyDerive], .error (.validation "Invalid prevTxId: expected a 32-byte hex string")) := by
    simp +decide [createRedeemTx, toBuffer, sampleEnv, assertValidTxInput,
      assertIntegerRange, maxSafeInteger, sampleKey, sampleSecret]
  have h2 := (claim5_validation_order sampleEnv "1234" 0 100000 (.buf sampleKey)
    (.buf sampleSecret) (.buf [0x51]) "tb1qdest" 0
    500 "Invalid prevTxId: expected a 32-byte hex string").1 [.keyDerive] h
  rw [h]
  exact h2.1

theorem assertValidTxInput_fee_error (prevTxId : String) (prevIndex amountSats feeSats : ℚ)
    (hhex : hexTest prevTxId = true) (hlen : prevTxId.length = 64)
    (hidx : prevIndex.den = 1 ∧ 0 ≤ prevIndex ∧ prevIndex ≤ maxSafeInteger)
    (hamt : amountSats.den = 1 ∧ 1 ≤ amountSats ∧ amountSats ≤ maxSafeInteger)
    (hfee : feeSats.den = 1 ∧ 1 ≤ feeSats ∧ feeSats ≤ maxSafeInteger)
    (hge : feeSats ≥ amountSats) :
    assertValidTxInput prevTxId prevIndex amountSats feeSats =
      some (.validation "feeSats must be lower than amountSats") := by
  unfold assertValidTxInput assertIntegerRange
  rw [if_neg (by simp [hhex, hlen]), if_pos hidx, if_pos hamt, if_pos hfee, if_pos hge]

/-- C6.  For both builds, if `feeSats ≥ amountSats` (with all other
transaction-input fields well-formed) the build fails with the
`ValidationError` whose message states the fee/amount relationship
("feeSats must be lower than amountSats"); and whenever a build
succeeds its single output pays exactly `amountSats - feeSats`, which
is strictly positive. -/
theorem claim6_fee_invariant :
    ∀ (E : Env) (prevTxId : String) (prevIndex amountSats : ℚ)
      (privateKey secret redeemScript : ByteSource) (destinationAddress : String)
      (timeout feeSats : ℚ),
      (∀ privateKeyBuf secretBuf redeemScriptBuf,
        toBuffer privateKey "privateKey" = .ok privateKeyBuf →
        privateKeyBuf.length = 32 → E.isPrivate privateKeyBuf = true →
        toBuffer secret "secret" = .ok secretBuf → secretBuf.length = 32 →
        toBuffer redeemScript "redeemScript" = .ok redeemScriptBuf →
        redeemScriptBuf ≠ [] →
        hexTest prevTxId = true → prevTxId.length = 64 →
        prevIndex.den = 1 ∧ 0 ≤ prevIndex ∧ prevIndex ≤ maxSafeInteger →
        amountSats.den = 1 ∧ 1 ≤ amountSats ∧ amountSats ≤ maxSafeInteger →
        feeSats.den = 1 ∧ 1 ≤ feeSats ∧ feeSats ≤ maxSafeInteger →
        feeSats ≥ amountSats →
        (createRedeemTx E prevTxId prevIndex amountSats privateKey secret
            redeemScript destinationAddress feeSats).2 =
          .error (.validation "feeSats must be lower than amountSats")) ∧
      (∀ privateKeyBuf redeemScriptBuf,
        toBuffer privateKey "privateKey" = .ok privateKeyBuf →
        privateKeyBuf.length = 32 → E.isPrivate privateKeyBuf = true →
        toBuffer redeemScript "redeemScript" = .ok redeemScriptBuf →
        redeemScriptBuf ≠ [] →
        timeout.den = 1 ∧ 1 ≤ timeout ∧ timeout ≤ 16777215 →
        hexTest prevTxId = true → prevTxId.length = 64 →
        prevIndex.den = 1 ∧ 0 ≤ prevIndex ∧ prevIndex ≤ maxSafeInteger →
        amountSats.den = 1 ∧ 1 ≤ amountSats ∧ amountSats ≤ maxSafeInteger →
        feeSats.den = 1 ∧ 1 ≤ feeSats ∧ feeSats ≤ maxSafeInteger →
        feeSats ≥ amountSats →
        (createRefundTx E prevTxId prevIndex amountSats privateKey
            redeemScript destinationAddress timeout feeSats).2 =
          .error (.validation "feeSats must be lower than amountSats")) ∧
      (∀ tr r, createRedeemTx E prevTxId prevIndex amountSats privateKey secret
          redeemScript destinationAddress feeSats = (tr, .ok r) →
        r.tx.outs.map TxOut.value = [amountSats - feeSats] ∧
        0 < amountSats - feeSats) ∧
      (∀ tr r, createRefundTx E prevTxId prevIndex amountSats privateKey
          redeemScript destinationAddress timeout feeSats = (tr, .ok r) →
        r.tx.outs.map TxOut.value = [amountSats - feeSats] ∧
        0 < amountSats - feeSats) := by
  intro E prevTxId prevIndex amountSats privateKey secret redeemScript dest timeout feeSats
  refine ⟨?_, ?_, ?_, ?_⟩
  · intro kB sB rB h1 h2 h3 h4 h5 h6 h7 hhex hlen hidx hamt hfee hge
    have hv := assertValidTxInput_fee_error prevTxId prevIndex amountSats feeSats
      hhex hlen hidx hamt hfee hge
    unfold createRedeemTx
    rw [h1, h4, h6]
    simp [h2, h3, h5, h7, hv]
  · intro kB rB h1 h2 h3 h4 h5 htime hhex hlen hidx hamt hfee hge
    have hv := assertValidTxInput_fee_error prevTxId prevIndex amountSats feeSats
      hhex hlen hidx hamt hfee hge
    have ht : assertIntegerRange timeout "timeout" 1 16777215 = none := by
      unfold assertIntegerRange
      rw [if_pos htime]
    unfold createRefundTx
    rw [h1, h4]
    simp [h2, h3, h5, ht, hv]
  · intro tr r h
    obtain ⟨kB, sB, rB, sig, _, _, _, _, _, _, _, h8, _, _, _, h12⟩ :=
      createRedeemTx_ok_inv E prevTxId prevIndex amountSats privateKey secret
        redeemScript dest feeSats tr r h
    obtain ⟨_, _, _, _, _, hlt⟩ := (assertValidTxInput_none_iff _ _ _ _).mp h8
    subst h12
    exact ⟨rfl, by linarith⟩
  · intro tr r h
    obtain ⟨kB, rB, sig, _, _, _, _, _, _, h7, _, _, _, h11⟩ :=
      createRefundTx_ok_inv E prevTxId prevIndex amountSats privateKey
        redeemScript dest timeout feeSats tr r h
    obtain ⟨_, _, _, _, _, hlt⟩ := (assertValidTxInput_none_iff _ _ _ _).mp h7
    subst h11
    exact ⟨rfl, by linarith⟩

/-- Witness for C6: the refund build at `amountSats = 300`,
`feeSats = 500` fails with the fee/amount `ValidationError`. -/
theorem claim6_witness :
    (createRefundTx sampleEnv sampleTxId 0 300 (.buf sampleKey) (.buf [0x51])
      "tb1qdest" 144 500).2 =
      .error (.validation "feeSats must be lower than amountSats") := by
  exact (claim6_fee_invariant sampleEnv sampleTxId 0 300 (.buf sampleKey)
      (.buf sampleSecret) (.buf [0x51]) "tb1qdest" 144 500).2.1
    sampleKey [0x51] rfl (by simp [sampleKey]) (by simp [sampleEnv]) rfl (by simp)
    (by norm_num) (by decide) (by decide)
    (by norm_num [maxSafeInteger]) (by norm_num [maxSafeInteger])
    (by norm_num [maxSafeInteger]) (by norm_num)

/-- C7.  The script builder `generateHTLC` verifies both public keys against the curve
(`ecc.isPoint`) before any script assembly: given format-valid inputs,
if the buyer key is not a point the build fails with the buyer
`CryptographicError`, if the buyer key is a point but the seller key is
not the build fails with the seller `CryptographicError` (in both cases
regardless of the timeout, and no script, hash or address is produced
since the result is an error), and every successful build implies both
keys are valid curve points. -/
theorem claim7_pubkey_point_check :
    ∀ (E : Env) (secretHash buyerPubKey sellerPubKey : ByteSource) (timeout : ℚ)
      (secretHashBuf buyerPubKeyBuf sellerPubKeyBuf : List Nat),
      toBuffer secretHash "secretHash" = .ok secretHashBuf → secretHashBuf.length = 32 →
      toBuffer buyerPubKey "buyerPubKey" = .ok buyerPubKeyBuf → buyerPubKeyBuf.length = 33 →
      toBuffer sellerPubKey "sellerPubKey" = .ok sellerPubKeyBuf → sellerPubKeyBuf.length = 33 →
      ((E.isPoint buyerPubKeyBuf = false →
        generateHTLC E secretHash buyerPubKey sellerPubKey timeout =
          .error (.cryptographic "Invalid buyer public key: not a valid secp256k1 point")) ∧
       (E.isPoint buyerPubKeyBuf = true → E.isPoint sellerPubKeyBuf = false →
        generateHTLC E secretHash buyerPubKey sellerPubKey timeout =
          .error (.cryptographic "Invalid seller public key: not a valid secp256k1 point")) ∧
       (∀ r, generateHTLC E secretHash buyerPubKey sellerPubKey timeout = .ok r →
        E.isPoint buyerPubKeyBuf = true ∧ E.isPoint sellerPubKeyBuf = true)) := by
  intro E secretHash buyerPubKey sellerPubKey timeout shB bpB spB h1 h2 h3 h4 h5 h6
  refine ⟨?_, ?_, ?_⟩
  · intro hpt
    unfold generateHTLC
    rw [h1, h3, h5]
    simp [h2, h4, h6, hpt]
  · intro hbt hpt
    unfold generateHTLC
    rw [h1, h3, h5]
    simp [h2, h4, h6, hbt, hpt]
  · intro r h
    obtain ⟨shB2, bpB2, spB2, g1, g2, g3, _, _, _, g7, g8, _⟩ :=
      generateHTLC_ok_inv E secretHash buyerPubKey sellerPubKey timeout r h
    rw [h3] at g2
    rw [h5] at g3
    cases g2
    cases g3
    exact ⟨g7, g8⟩

/-- Witness for C7: under an environment whose curve test rejects the
keys, the concrete build fails with the buyer `CryptographicError`. -/
theorem claim7_witness :
    generateHTLC sampleEnvNoPoint (.buf sampleHash) (.buf samplePub) (.buf samplePub) 144 =
      .error (.cryptographic "Invalid buyer public key: not a valid secp256k1 point") := by
  exact ((claim7_pubkey_point_check sampleEnvNoPoint (.buf sampleHash) (.buf samplePub)
      (.buf samplePub) 144 sampleHash samplePub samplePub
      rfl (by simp [sampleHash]) rfl (by simp [samplePub]) rfl (by simp [samplePub]))).1
    (by simp [sampleEnvNoPoint])

/-- C8.  The builders `generateHTLC` and `createRefundTx` accept a timeout only
if it is an integral value in `[1, 0xFFFFFF]`: every success implies
the timeout is an integer in that range, and for any timeout that is
non-integral or out of range (with the earlier-checked inputs valid)
they fail with the timeout `ValidationError` and produce no script or
transaction. -/
theorem claim8_timeout_range :
    (∀ (E : Env) (secretHash buyerPubKey sellerPubKey : ByteSource) (timeout : ℚ)
       (r : HTLCResult),
       generateHTLC E secretHash buyerPubKey sellerPubKey timeout = .ok r →
       timeout.den = 1 ∧ 1 ≤ timeout ∧ timeout ≤ 16777215) ∧
    (∀ (E : Env) (prevTxId : String) (prevIndex amountSats : ℚ)
       (privateKey redeemScript : ByteSource) (destinationAddress : String)
       (timeout feeSats : ℚ) (tr : List CryptoEvent) (r : RedeemTxResult),
       createRefundTx E prevTxId prevIndex amountSats privateKey redeemScript
         destinationAddress timeout feeSats = (tr, .ok r) →
       timeout.den = 1 ∧ 1 ≤ timeout ∧ timeout ≤ 16777215) ∧
    (∀ (E : Env) (secretHash buyerPubKey sellerPubKey : ByteSource) (timeout : ℚ)
       (secretHashBuf buyerPubKeyBuf sellerPubKeyBuf : List Nat),
       toBuffer secretHash "secretHash" = .ok secretHashBuf → secretHashBuf.length = 32 →
       toBuffer buyerPubKey "buyerPubKey" = .ok buyerPubKeyBuf → buyerPubKeyBuf.length = 33 →
       toBuffer sellerPubKey "sellerPubKey" = .ok sellerPubKeyBuf → sellerPubKeyBuf.length = 33 →
       E.isPoint buyerPubKeyBuf = true → E.isPoint sellerPubKeyBuf = true →
       ¬ (timeout.den = 1 ∧ 1 ≤ timeout ∧ timeout ≤ 16777215) →
       generateHTLC E secretHash buyerPubKey sellerPubKey timeout =
         .error (.validation "Invalid timeout: expected integer in range")) ∧
    (∀ (E : Env) (prevTxId : String) (prevIndex amountSats : ℚ)
       (privateKey redeemScript : ByteSource) (destinationAddress : String)
       (timeout feeSats : ℚ) (privateKeyBuf redeemScriptBuf : List Nat),
       toBuffer privateKey "privateKey" = .ok privateKeyBuf → privateKeyBuf.length = 32 →
       E.isPrivate privateKeyBuf = true →
       toBuffer redeemScript "redeemScript" = .ok redeemScriptBuf → redeemScriptBuf ≠ [] →
       ¬ (timeout.den = 1 ∧ 1 ≤ timeout ∧ timeout ≤ 16777215) →
       (createRefundTx E prevTxId prevIndex amountSats privateKey redeemScript
           destinationAddress timeout feeSats).2 =
         .error (.validation "Invalid timeout: expected integer in range")) := by
  refine ⟨?_, ?_, ?_, ?_⟩
  · intro E secretHash buyerPubKey sellerPubKey timeout r h
    obtain ⟨_, _, _, _, _, _, _, _, _, _, _, h9⟩ :=
      generateHTLC_ok_inv E secretHash buyerPubKey sellerPubKey timeout r h
    exact (assertIntegerRange_none_iff _ _ _ _).mp h9
  · intro E prevTxId prevIndex amountSats privateKey redeemScript dest timeout feeSats tr r h
    obtain ⟨_, _, _, _, _, _, _, _, h6, _⟩ :=
      createRefundTx_ok_inv E prevTxId prevIndex amountSats privateKey
        redeemScript dest timeout feeSats tr r h
    exact (assertIntegerRange_none_iff _ _ _ _).mp h6
  · intro E secretHash buyerPubKey sellerPubKey timeout shB bpB spB
      h1 h2 h3 h4 h5 h6 h7 h8 hbad
    have ht : assertIntegerRange timeout "timeout" 1 16777215 =
        some (.validation "Invalid timeout: expected integer in range") := by
      unfold assertIntegerRange
      rw [if_neg hbad]
      rfl
    unfold generateHTLC
    rw [h1, h3, h5]
    simp [h2, h4, h6, h7, h8, ht]
  · intro E prevTxId prevIndex amountSats privateKey redeemScript dest timeout feeSats
      kB rB h1 h2 h3 h4 h5 hbad
    have ht : assertIntegerRange timeout "timeout" 1 16777215 =
        some (.validation "Invalid timeout: expected integer in range") := by
      unfold assertIntegerRange
      rw [if_neg hbad]
      rfl
    unfold createRefundTx
    rw [h1, h4]
    simp [h2, h3, h5, ht]

/-- Witness for C8: the out-of-range timeout `0x1000000` makes the
concrete script build fail with the timeout `ValidationError`. -/
theorem claim8_witness :
    generateHTLC sampleEnv (.buf sampleHash) (.buf samplePub) (.buf samplePub) 16777216 =
      .error (.validation "Invalid timeout: expected integer in range") := by
  exact claim8_timeout_range.2.2.1 sampleEnv (.buf sampleHash) (.buf samplePub)
    (.buf samplePub) 16777216 sampleHash samplePub samplePub
    rfl (by simp [sampleHash]) rfl (by simp [samplePub]) rfl (by simp [samplePub])
    (by simp [sampleEnv]) (by simp [sampleEnv]) (by norm_num)

/-- C9.  The secret generator `generateSecret` returns the 32 bytes drawn from the
entropy source (`crypto.randomBytes(32)`, which by its contract yields
exactly 32 bytes) together with exactly `sha256` of those same bytes:
the secret has length 32 and the returned hash is the hash of the
returned secret. -/
theorem claim9_generateSecret :
    ∀ (E : Env) (randomBytes : Nat → List Nat),
      (randomBytes 32).length = 32 →
      ∃ res, generateSecret E randomBytes = .ok res ∧
        res.secret = randomBytes 32 ∧
        res.secret.length = 32 ∧
        res.secretHash = E.sha256 res.secret := by
  intro E randomBytes hlen
  refine ⟨{ secret := randomBytes 32, secretHash := E.sha256 (randomBytes 32) }, ?_, rfl, hlen, rfl⟩
  unfold generateSecret sha256Util toBuffer
  rfl

/-- Witness for C9: a concrete 32-byte entropy draw round-trips through
`generateSecret` with its hash. -/
theorem claim9_witness :
    ∃ res, generateSecret sampleEnv (fun n => List.replicate n 9) = .ok res ∧
      res.secret = List.replicate 32 9 ∧
      res.secret.length = 32 ∧
      res.secretHash = sampleEnv.sha256 res.secret := by
  exact claim9_generateSecret sampleEnv (fun n => List.replicate n 9) (by simp)
